import Mathlib

/-!
# Verification of the polymarket-5min trading core

A shallow embedding, in Lean, of the trading engine of the
polymarket-5min repository: the order executor (`Trader`), the trade
ledger (`Db`), the streaming price cache (`PriceStream`) and the
position manager's stop-loss check (`Bot`), together with theorems
settling the specification's claims about them.

Conventions of the embedding:
* JavaScript numbers are modelled as exact rationals (`ℚ`); `Math.floor`
  is `Int.floor`, `Number.toFixed(6)` is rounding at six decimals.
* Asynchronous exchange interactions are modelled by passing in the
  observed outcome of each network call explicitly (one environment
  record per retry attempt); a thrown exception is a `PostOutcome.threw`
  with the error message, a rejected order a `PostOutcome.rejected`.
* `console.error` diagnostics that accompany a `null` return are kept as
  data in the result type where a claim refers to them.
-/

namespace PolymarketBot

/-- Whether `needle` is a prefix of `hay` (character lists). -/
def listPrefixCheck : List Char → List Char → Bool
  | [], _ => true
  | _ :: _, [] => false
  | a :: as, b :: bs => a = b && listPrefixCheck as bs

/-- Whether `needle` occurs contiguously inside `hay` (character lists). -/
def listContainsSub (needle : List Char) : List Char → Bool
  | [] => listPrefixCheck needle []
  | b :: bs => listPrefixCheck needle (b :: bs) || listContainsSub needle bs

/-- JavaScript's `String.prototype.includes`: substring containment. -/
def containsStr (hay needle : String) : Bool :=
  listContainsSub needle.toList hay.toList

namespace Trader

/-- Fallback minimum order size (`MIN_ORDER_SIZE` in trader.ts). -/
def MIN_ORDER_SIZE : ℚ := 5

/-- `isBalanceAllowanceError` from trader.ts: an error message is treated as a
transient balance/allowance race when it mentions "balance" or "allowance". -/
def isBalanceAllowanceError (msg : String) : Bool :=
  containsStr msg "balance" || containsStr msg "allowance"

/-- `Number((x).toFixed(6))`: round to six decimal places (ties away from
zero on the positive values that occur here, per ECMA `toFixed`). -/
def toFixed6 (q : ℚ) : ℚ :=
  (⌊q * 1000000 + 1/2⌋ : ℤ) / 1000000

/-- `clampPriceToTick` from trader.ts: clamp the price into
`[tickSize, 1 - tickSize]`, snap down to the tick grid, round to six
decimals. -/
def clampPriceToTick (price tickSize : ℚ) : ℚ :=
  let bounded := min (1 - tickSize) (max tickSize price)
  let ticks := (⌊bounded / tickSize⌋ : ℤ)
  toFixed6 (ticks * tickSize)

/-- Result of `validateAndAdjustShares`: the clamped quantity and the
minimum order size that was checked. -/
structure AdjustedShares where
  sharesToSell : ℚ
  minOrderSize : ℚ
deriving DecidableEq, Repr

/-- `validateAndAdjustShares` from trader.ts.  `positionBalance` is the
result of `getPositionBalance` (`none` models the API-error `null`);
the requested `shares` are clamped to the balance, and the call fails
(returns `none`, after logging) when the balance is missing, dust
(< 0.01), or the clamped quantity is below 0.01 or the token minimum. -/
def validateAndAdjustShares (positionBalance : Option ℚ) (shares : ℚ)
    (minOrderSize : ℚ) : Option AdjustedShares :=
  match positionBalance with
  | none => none
  | some b =>
    if b < 1/100 then none
    else
      let sharesToSell := min shares b
      if sharesToSell < 1/100 then none
      else if sharesToSell < minOrderSize then none
      else some ⟨sharesToSell, minOrderSize⟩

/-- The order-urgency modes used by `marketSell` (from the exchange
client's `OrderType`): full immediate fill vs. partial immediate fill. -/
inductive OrderType where
  | FOK
  | FAK
deriving DecidableEq, Repr

/-- Observed fill information (`waitForFill` result). -/
structure FillInfo where
  filledShares : ℚ
  avgPrice : ℚ
deriving DecidableEq, Repr

/-- Outcome of one `createAndPostOrder` / `createAndPostMarketOrder`
call: an exception with its message, a rejection with the response's
`errorMsg`, or acceptance with an order id. -/
inductive PostOutcome where
  | threw (msg : String)
  | rejected (errorMsg : Option String)
  | accepted (orderId : String)
deriving DecidableEq, Repr

/-- The environment one sell attempt observes: the exchange-held balance
re-read at the start of the attempt, the token's market rules in force,
and the outcomes of the order post and the fill poll. -/
structure SellAttemptEnv where
  positionBalance : Option ℚ
  minOrderSize : ℚ
  tickSize : ℚ
  post : PostOutcome
  fill : Option FillInfo
deriving DecidableEq, Repr

/-- `MarketSellResult` from trader.ts. -/
structure MarketSellResult where
  orderId : String
  price : ℚ
  soldShares : ℚ
  fullyFilled : Bool
deriving DecidableEq, Repr

/-- One order actually submitted to the exchange during a sell loop. -/
structure Submission where
  attempt : ℕ
  orderType : OrderType
  amount : ℚ
  priceCap : Option ℚ
deriving DecidableEq, Repr

/-- Trace of a `marketSell` run: the returned value, the orders submitted,
and the backoff delays (ms) slept between transient retries. -/
structure SellRun where
  result : Option MarketSellResult
  submissions : List Submission
  backoffs : List ℕ
deriving DecidableEq, Repr

/-- The backoff used on a transient balance/allowance failure:
`Math.min(500 * Math.pow(2, attempt - 1), 2000)` milliseconds. -/
def backoffMs (attempt : ℕ) : ℕ :=
  min (500 * 2 ^ (attempt - 1)) 2000

/-- Record a submission at the front of a run trace. -/
def addSub (s : Submission) (r : SellRun) : SellRun :=
  { r with submissions := s :: r.submissions }

/-- Record a backoff sleep at the front of a run trace. -/
def addBackoff (b : ℕ) (r : SellRun) : SellRun :=
  { r with backoffs := b :: r.backoffs }

/-- The empty failed run (loop exhausted without a fill). -/
def noneRun : SellRun := ⟨none, [], []⟩

/-- The urgency escalation of `marketSell`:
`attempt === 1 ? OrderType.FOK : OrderType.FAK`. -/
def orderTypeFor (attempt : ℕ) : OrderType :=
  if attempt = 1 then OrderType.FOK else OrderType.FAK

/-- The optional price cap of `marketSell`: a finite positive
`bidOverride` clamped to the tick grid. -/
def priceCapFor (bidOverride : Option ℚ) (tickSize : ℚ) : Option ℚ :=
  match bidOverride with
  | some b => if 0 < b then some (clampPriceToTick b tickSize) else none
  | none => none

/-- The retry loop of `marketSell` (trader.ts lines 746-827), one
`SellAttemptEnv` consumed per iteration, `attempt` counting from 1.
A failed `validateAndAdjustShares` throws a message without "balance",
which the attempt's own catch treats as non-transient. -/
def marketSellGo (sharesReq : ℚ) (bidOverride : Option ℚ) (maxRetries : ℕ) :
    List SellAttemptEnv → ℕ → SellRun
  | [], _ => noneRun
  | env :: rest, attempt =>
    if maxRetries < attempt then noneRun
    else
      match validateAndAdjustShares env.positionBalance sharesReq env.minOrderSize with
      | none =>
        if attempt < maxRetries then
          marketSellGo sharesReq bidOverride maxRetries rest (attempt + 1)
        else noneRun
      | some adjusted =>
        let orderType := orderTypeFor attempt
        let priceCap : Option ℚ := priceCapFor bidOverride env.tickSize
        let sub : Submission := ⟨attempt, orderType, adjusted.sharesToSell, priceCap⟩
        match env.post with
        | .threw msg =>
          if isBalanceAllowanceError msg then
            addSub sub (addBackoff (backoffMs attempt)
              (marketSellGo sharesReq bidOverride maxRetries rest (attempt + 1)))
          else if attempt < maxRetries then
            addSub sub (marketSellGo sharesReq bidOverride maxRetries rest (attempt + 1))
          else addSub sub noneRun
        | .rejected errorMsg =>
          if isBalanceAllowanceError (errorMsg.getD "") then
            addSub sub (addBackoff (backoffMs attempt)
              (marketSellGo sharesReq bidOverride maxRetries rest (attempt + 1)))
          else if attempt < maxRetries then
            addSub sub (marketSellGo sharesReq bidOverride maxRetries rest (attempt + 1))
          else addSub sub noneRun
        | .accepted orderId =>
          match env.fill with
          | none =>
            if attempt < maxRetries then
              addSub sub (marketSellGo sharesReq bidOverride maxRetries rest (attempt + 1))
            else addSub sub noneRun
          | some fillInfo =>
            if fillInfo.filledShares ≤ 0 then
              if attempt < maxRetries then
                addSub sub (marketSellGo sharesReq bidOverride maxRetries rest (attempt + 1))
              else addSub sub noneRun
            else
              let soldShares := min adjusted.sharesToSell fillInfo.filledShares
              let fullyFilled : Bool := decide (adjusted.sharesToSell * (99/100) ≤ soldShares)
              if fullyFilled = false ∧ orderType = OrderType.FOK ∧ attempt < maxRetries then
                addSub sub (marketSellGo sharesReq bidOverride maxRetries rest (attempt + 1))
              else
                let execPrice :=
                  if 0 < fillInfo.avgPrice then fillInfo.avgPrice
                  else priceCap.getD (bidOverride.getD 0)
                { result := some ⟨orderId, execPrice, soldShares, fullyFilled⟩,
                  submissions := [sub], backoffs := [] }

/-- `marketSell` from trader.ts: the guard on the requested quantity
(`!shares || shares < 0.01` throws out of the function), then the retry
loop starting at attempt 1. -/
def marketSell (sharesReq : ℚ) (bidOverride : Option ℚ) (maxRetries : ℕ)
    (envs : List SellAttemptEnv) : Except String SellRun :=
  if sharesReq = 0 ∨ sharesReq < 1/100 then
    Except.error "[STOP-LOSS] Invalid shares to sell"
  else
    Except.ok (marketSellGo sharesReq bidOverride maxRetries envs 1)

/-- Result of a successful `limitSell`. -/
structure LimitSellResult where
  orderId : String
  price : ℚ
deriving DecidableEq, Repr

/-- One limit order submitted during a `limitSell` loop. -/
structure LimitSubmission where
  attempt : ℕ
  size : ℚ
  price : ℚ
deriving DecidableEq, Repr

/-- Trace of a `limitSell` run. -/
structure LimitRun where
  result : Option LimitSellResult
  submissions : List LimitSubmission
  backoffs : List ℕ
deriving DecidableEq, Repr

/-- Record a submission at the front of a limit-sell trace. -/
def addLimitSub (s : LimitSubmission) (r : LimitRun) : LimitRun :=
  { r with submissions := s :: r.submissions }

/-- Record a backoff sleep at the front of a limit-sell trace. -/
def addLimitBackoff (b : ℕ) (r : LimitRun) : LimitRun :=
  { r with backoffs := b :: r.backoffs }

/-- The empty failed limit-sell run. -/
def noneLimitRun : LimitRun := ⟨none, [], []⟩

/-- The retry loop of `limitSell` (trader.ts lines 683-728).  A failed
`validateAndAdjustShares` returns `null` at once; a rejection whose
message is not a balance/allowance race returns `null` at once; only
transient rejections continue after a backoff.  The `fill` field of the
environment is not consulted (limit sells do not poll for fills). -/
def limitSellGo (price sharesReq : ℚ) (maxRetries : ℕ) :
    List SellAttemptEnv → ℕ → LimitRun
  | [], _ => noneLimitRun
  | env :: rest, attempt =>
    if maxRetries < attempt then noneLimitRun
    else
      match validateAndAdjustShares env.positionBalance sharesReq env.minOrderSize with
      | none => noneLimitRun
      | some adjusted =>
        let limitPrice := clampPriceToTick price env.tickSize
        let sub : LimitSubmission := ⟨attempt, adjusted.sharesToSell, limitPrice⟩
        match env.post with
        | .accepted orderId =>
          { result := some ⟨orderId, limitPrice⟩, submissions := [sub], backoffs := [] }
        | .rejected errorMsg =>
          if isBalanceAllowanceError (errorMsg.getD "") then
            addLimitSub sub (addLimitBackoff (backoffMs attempt)
              (limitSellGo price sharesReq maxRetries rest (attempt + 1)))
          else { result := none, submissions := [sub], backoffs := [] }
        | .threw msg =>
          if isBalanceAllowanceError msg then
            addLimitSub sub (addLimitBackoff (backoffMs attempt)
              (limitSellGo price sharesReq maxRetries rest (attempt + 1)))
          else { result := none, submissions := [sub], backoffs := [] }

/-- `limitSell` from trader.ts: the `!shares || shares < 0.01` guard
returns `null`, then the retry loop from attempt 1. -/
def limitSell (price sharesReq : ℚ) (maxRetries : ℕ)
    (envs : List SellAttemptEnv) : LimitRun :=
  if sharesReq = 0 ∨ sharesReq < 1/100 then noneLimitRun
  else limitSellGo price sharesReq maxRetries envs 1

/-- Per-token market rules (`TokenMarketRules` without the timestamp). -/
structure MarketRules where
  minOrderSize : ℚ
  tickSize : ℚ
deriving DecidableEq, Repr

/-- The observable outcome of `buy` from trader.ts: each failure variant
carries the data of the diagnostic logged next to the `null` return. -/
inductive BuyOutcome where
  | invalidPrice
  | insufficientFunds
  | belowMinimum (neededUsdc : ℚ)
  | orderFailed (errorMsg : Option String)
  | buyError (msg : String)
  | placed (orderId : String) (shares : ℚ)
deriving DecidableEq, Repr

/-- The price-bounds guard of `buy`: `price < 0.0001 || price >= 1`. -/
def buyPriceInvalid (price : ℚ) : Bool :=
  decide (price < 1/10000 ∨ 1 ≤ price)

/-- `buy` from trader.ts: bounds-check the price, clamp it to the tick
grid, size the order as `Math.floor((usdcAmount / limitPrice) * 100) / 100`,
reject sizes that are nonpositive or below the token minimum (reporting
the USDC needed for the minimum), then post. -/
def buy (price usdcAmount : ℚ) (rules : MarketRules) (post : PostOutcome) : BuyOutcome :=
  if buyPriceInvalid price then .invalidPrice
  else
    let limitPrice := clampPriceToTick price rules.tickSize
    let shares := ((⌊(usdcAmount / limitPrice) * 100⌋ : ℤ) : ℚ) / 100
    if shares ≤ 0 then .insufficientFunds
    else if shares < rules.minOrderSize then
      .belowMinimum (rules.minOrderSize * limitPrice)
    else
      match post with
      | .accepted orderId => .placed orderId shares
      | .rejected errorMsg => .orderFailed errorMsg
      | .threw msg => .buyError msg

/-- A top-of-book snapshot as `getPrice` consumes it: the parsed prices
of the bid and ask arrays in exchange order (best first). -/
structure OrderBook where
  bids : List ℚ
  asks : List ℚ
deriving DecidableEq, Repr

/-- The `{ bid, ask, mid }` triple `getPrice` returns. -/
structure PriceQuote where
  bid : ℚ
  ask : ℚ
  mid : ℚ
deriving DecidableEq, Repr

/-- `getPrice` from trader.ts: best bid defaults to 0 and best ask to 1
when the book side is empty; any error from the order-book query is
swallowed and replaced by the fixed `{ bid: 0, ask: 1, mid: 0.5 }`. -/
def getPrice (book : Except String OrderBook) : PriceQuote :=
  match book with
  | .error _ => ⟨0, 1, 1/2⟩
  | .ok b =>
    let bestBid := b.bids.head?.getD 0
    let bestAsk := b.asks.head?.getD 1
    ⟨bestBid, bestAsk, (bestBid + bestAsk) / 2⟩

end Trader

namespace Db

/-- The trade status column of db.ts. -/
inductive TradeStatus where
  | OPEN
  | STOPPED
  | RESOLVED
deriving DecidableEq, Repr

/-- The two market outcomes. -/
inductive TradeSide where
  | UP
  | DOWN
deriving DecidableEq, Repr

/-- The statuses `closeTrade` may write (`"STOPPED" | "RESOLVED"`). -/
inductive TerminalStatus where
  | STOPPED
  | RESOLVED
deriving DecidableEq, Repr

/-- A terminal status as a `TradeStatus`. -/
def TerminalStatus.toStatus : TerminalStatus → TradeStatus
  | .STOPPED => .STOPPED
  | .RESOLVED => .RESOLVED

/-- One row of the `trades` table (the `Trade` interface of db.ts). -/
structure TradeRow where
  id : ℕ
  marketSlug : String
  tokenId : String
  side : TradeSide
  entryPrice : ℚ
  exitPrice : Option ℚ
  shares : ℚ
  costBasis : ℚ
  status : TradeStatus
  pnl : Option ℚ
  createdAt : String
  closedAt : Option String
  marketEndDate : Option String
deriving DecidableEq, Repr

/-- The `trades` table, in insertion (rowid) order. -/
abbrev TradeDb := List TradeRow

/-- The next AUTOINCREMENT rowid. -/
def nextId (db : TradeDb) : ℕ :=
  db.foldl (fun m r => max m r.id) 0 + 1

/-- The insertable columns of `insertTrade`
(`Omit<Trade, "id" | "exit_price" | "pnl" | "closed_at" | "status">`). -/
structure TradeInput where
  marketSlug : String
  tokenId : String
  side : TradeSide
  entryPrice : ℚ
  shares : ℚ
  costBasis : ℚ
  createdAt : String
  marketEndDate : Option String
deriving DecidableEq, Repr

/-- `insertTrade` from db.ts: insert a row with status `'OPEN'` and NULL
exit price, pnl and close timestamp; return the new rowid. -/
def insertTrade (db : TradeDb) (t : TradeInput) : TradeDb × ℕ :=
  let id := nextId db
  (db ++ [⟨id, t.marketSlug, t.tokenId, t.side, t.entryPrice, none, t.shares,
    t.costBasis, .OPEN, none, t.createdAt, none, t.marketEndDate⟩], id)

/-- `getTradeById` from db.ts (`SELECT * FROM trades WHERE id = ?`,
first match). -/
def getTradeById (db : TradeDb) (id : ℕ) : Option TradeRow :=
  match db with
  | [] => none
  | r :: rest => if r.id = id then some r else getTradeById rest id

/-- The row update performed by `closeTrade`'s SQL
(`UPDATE trades SET exit_price = ?, status = ?, pnl = ?, closed_at = ? WHERE id = ?`). -/
def applyClose (id : ℕ) (exitPrice : ℚ) (status : TerminalStatus) (pnl : ℚ)
    (closedAt : String) (r : TradeRow) : TradeRow :=
  if r.id = id then
    { r with exitPrice := some exitPrice, status := status.toStatus,
             pnl := some pnl, closedAt := some closedAt }
  else r

/-- `closeTrade` from db.ts: look the trade up (no-op when absent),
compute `pnl = (exitPrice - entry_price) * shares` from the found row,
and set exit price, status, pnl and close timestamp in one UPDATE. -/
def closeTrade (db : TradeDb) (id : ℕ) (exitPrice : ℚ)
    (status : TerminalStatus) (closedAt : String) : TradeDb :=
  match getTradeById db id with
  | none => db
  | some trade =>
    let pnl := (exitPrice - trade.entryPrice) * trade.shares
    db.map (applyClose id exitPrice status pnl closedAt)

end Db

namespace PriceStream

/-- The `PriceUpdate` snapshot stored per instrument by websocket.ts. -/
structure PriceUpdate where
  tokenId : String
  price : ℚ
  bestBid : ℚ
  bestAsk : ℚ
deriving DecidableEq, Repr

/-- The `prices` map of the stream, keyed by token id. -/
abbrev PriceMap := List (String × PriceUpdate)

/-- `Map.get`. -/
def lookupPrice (prices : PriceMap) (tokenId : String) : Option PriceUpdate :=
  match prices with
  | [] => none
  | (k, v) :: rest => if k = tokenId then some v else lookupPrice rest tokenId

/-- `Map.set`: replace the entry for the key, or append a new one. -/
def setPrice (prices : PriceMap) (tokenId : String) (u : PriceUpdate) : PriceMap :=
  match prices with
  | [] => [(tokenId, u)]
  | (k, v) :: rest =>
    if k = tokenId then (k, u) :: rest else (k, v) :: setPrice rest tokenId u

/-- One element of a `price_changes` array.  An `Option` field is `none`
when the JSON property is absent (`undefined`); numeric strings are
modelled by their parsed value. -/
structure PCItem where
  assetId : Option String := none
  bestBid : Option ℚ := none
  bestAsk : Option ℚ := none
  price : Option ℚ := none
deriving DecidableEq, Repr

/-- The fields of one (non-array) stream message that `handleMessage`
inspects.  `eventTypeField` is the JSON `event_type` property,
`typeField` the `type` property. -/
structure RawObj where
  eventTypeField : Option String := none
  typeField : Option String := none
  assetId : Option String := none
  bids : Option (List ℚ) := none
  asks : Option (List ℚ) := none
  priceChanges : Option (List PCItem) := none
  bestBid : Option ℚ := none
  bestAsk : Option ℚ := none
  price : Option ℚ := none
deriving DecidableEq, Repr

/-- An incoming message: a single object, or an array of objects (the
source recurses into arrays element by element; nesting deeper than one
level does not occur on this wire format and is not modelled). -/
inductive RawData where
  | obj (o : RawObj)
  | arr (items : List RawObj)
deriving DecidableEq, Repr

/-- `handlePriceChangeItem` from websocket.ts: an explicit
`best_bid`/`best_ask` pair is authoritative (stored unless fully
degenerate `bid ≤ 0 ∧ ask ≥ 1`); otherwise a standalone trade price is
stored only when no snapshot with a real spread exists. -/
def handlePriceChangeItem (prices : PriceMap) (item : PCItem) : PriceMap :=
  match item.assetId with
  | none => prices
  | some tokenId =>
    match item.bestBid, item.bestAsk with
    | some bestBid, some bestAsk =>
      if 0 < bestBid ∨ bestAsk < 1 then
        setPrice prices tokenId ⟨tokenId, (bestBid + bestAsk) / 2, bestBid, bestAsk⟩
      else prices
    | _, _ =>
      let storeTrade :=
        let price := item.price.getD 0
        if price = 0 then prices
        else setPrice prices tokenId ⟨tokenId, price, price, price⟩
      match lookupPrice prices tokenId with
      | some existing =>
        if existing.bestBid ≠ existing.bestAsk then prices else storeTrade
      | none => storeTrade

/-- `handleBookUpdate` from websocket.ts: scan the book sides for the
highest bid (default 0) and lowest ask (default 1); ignore a book with
no real data on either side. -/
def handleBookUpdate (prices : PriceMap) (o : RawObj) : PriceMap :=
  match o.assetId with
  | none => prices
  | some tokenId =>
    let bids := o.bids.getD []
    let asks := o.asks.getD []
    let bestBid := bids.foldl (fun acc p => if acc < p then p else acc) 0
    let bestAsk := asks.foldl (fun acc p => if p < acc then p else acc) 1
    if 0 < bestBid ∧ bestAsk < 1 then
      setPrice prices tokenId ⟨tokenId, (bestBid + bestAsk) / 2, bestBid, bestAsk⟩
    else if 0 < bestBid then
      setPrice prices tokenId ⟨tokenId, bestBid, bestBid, bestAsk⟩
    else if bestAsk < 1 then
      setPrice prices tokenId ⟨tokenId, bestAsk, bestBid, bestAsk⟩
    else prices

/-- `handlePriceChange` from websocket.ts.  JavaScript's
`parseFloat(data.best_bid || "0")` maps an absent or zero bid to 0, and
`parseFloat(data.best_ask || "1")` maps an absent or zero ask to 1. -/
def handlePriceChange (prices : PriceMap) (o : RawObj) : PriceMap :=
  match o.assetId with
  | none => prices
  | some tokenId =>
    let bestBid := o.bestBid.getD 0
    let bestAsk :=
      match o.bestAsk with
      | some a => if a = 0 then 1 else a
      | none => 1
    if bestBid = 0 ∧ bestAsk = 1 then prices
    else setPrice prices tokenId ⟨tokenId, (bestBid + bestAsk) / 2, bestBid, bestAsk⟩

/-- `handleLastTradePrice` from websocket.ts: store the trade price as
the snapshot's price; `existing?.bestBid || price` keeps an existing
nonzero best bid (likewise the ask) and falls back to the trade price. -/
def handleLastTradePrice (prices : PriceMap) (o : RawObj) : PriceMap :=
  match o.assetId with
  | none => prices
  | some tokenId =>
    let price := o.price.getD 0
    if price = 0 then prices
    else
      let existing := lookupPrice prices tokenId
      let bestBid :=
        match existing with
        | some e => if e.bestBid = 0 then price else e.bestBid
        | none => price
      let bestAsk :=
        match existing with
        | some e => if e.bestAsk = 0 then price else e.bestAsk
        | none => price
      setPrice prices tokenId ⟨tokenId, price, bestBid, bestAsk⟩

/-- The shape dispatch of `handleMessage` for one object message, in
source order: book data first, then a `price_changes` array, then a
`price_change` event, then a last-trade price (an explicit
`last_trade_price` event, or any message whose `price` field is truthy). -/
def handleObjMessage (prices : PriceMap) (o : RawObj) : PriceMap :=
  if o.eventTypeField = some "book" ∨ o.typeField = some "book"
      ∨ o.bids.isSome ∨ o.asks.isSome then
    handleBookUpdate prices o
  else if o.priceChanges.isSome then
    (o.priceChanges.getD []).foldl handlePriceChangeItem prices
  else if o.eventTypeField = some "price_change" ∨ o.typeField = some "price_change" then
    handlePriceChange prices o
  else if o.eventTypeField = some "last_trade_price" ∨ o.typeField = some "last_trade_price"
      ∨ (o.price.isSome ∧ o.price ≠ some 0) then
    handleLastTradePrice prices o
  else prices

/-- `handleMessage` from websocket.ts: dispatch an object, or fold an
array element by element. -/
def handleMessage (prices : PriceMap) : RawData → PriceMap
  | .obj o => handleObjMessage prices o
  | .arr items => items.foldl handleObjMessage prices

/-- The connection-relevant state of the `PriceStream`: the tracked
subscription set (insertion order) and the connected flag. -/
structure StreamState where
  subscriptions : List String
  connected : Bool
deriving DecidableEq, Repr

/-- `Set.add`: append the id when not already tracked. -/
def addSubscription (subs : List String) (id : String) : List String :=
  if subs.contains id then subs else subs ++ [id]

/-- The `onopen` handler of `connect`: mark connected and resend the
whole tracked subscription set (`sendSubscription([...this.subscriptions])`)
when it is nonempty.  The second component is the subscription message
sent, if any. -/
def onOpen (s : StreamState) : StreamState × Option (List String) :=
  let s' := { s with connected := true }
  if s.subscriptions.isEmpty then (s', none) else (s', some s.subscriptions)

/-- The `onclose` handler: mark disconnected (a reconnect timer then
calls `connect` again, whose `onopen` is `onOpen`). -/
def onClose (s : StreamState) : StreamState :=
  { s with connected := false }

/-- `subscribe` from websocket.ts: keep only ids not already tracked,
add those to the set, and send a subscription message for just the new
ids when the socket is connected. -/
def subscribe (s : StreamState) (tokenIds : List String) :
    StreamState × Option (List String) :=
  let newTokenIds := tokenIds.filter (fun id => !(s.subscriptions.contains id))
  let s' := { s with subscriptions := newTokenIds.foldl addSubscription s.subscriptions }
  if !newTokenIds.isEmpty && s.connected then (s', some newTokenIds)
  else (s', none)

end PriceStream

namespace Bot

/-- The stop-loss comparison of `checkStopLosses` in bot.ts:
`currentPrice <= this.config.stopLoss`. -/
def stopLossTriggered (currentPrice stopLoss : ℚ) : Bool :=
  decide (currentPrice ≤ stopLoss)

/-- The price source selection of `checkStopLosses` in the
stream-enabled bot: the stream snapshot's price when one exists and the
stream is connected, otherwise the mid of a direct exchange quote. -/
def currentPriceForStopLoss (wsPrice : Option PriceStream.PriceUpdate)
    (wsConnected : Bool) (restMid : ℚ) : ℚ :=
  match wsPrice, wsConnected with
  | some w, true => w.price
  | _, _ => restMid

end Bot

namespace Tests

/-- `shouldTriggerStopLoss` from the repository's test suite:
`currentBid <= stopLoss`. -/
def shouldTriggerStopLoss (currentBid stopLoss : ℚ) : Bool :=
  decide (currentBid ≤ stopLoss)

end Tests

/-! ## General lemmas about the embedded operations -/

@[simp] lemma addSub_submissions (s : Trader.Submission) (r : Trader.SellRun) :
    (Trader.addSub s r).submissions = s :: r.submissions := rfl

@[simp] lemma addSub_result (s : Trader.Submission) (r : Trader.SellRun) :
    (Trader.addSub s r).result = r.result := rfl

@[simp] lemma addBackoff_submissions (b : ℕ) (r : Trader.SellRun) :
    (Trader.addBackoff b r).submissions = r.submissions := rfl

@[simp] lemma addBackoff_result (b : ℕ) (r : Trader.SellRun) :
    (Trader.addBackoff b r).result = r.result := rfl

@[simp] lemma noneRun_submissions : Trader.noneRun.submissions = [] := rfl

@[simp] lemma noneRun_result : Trader.noneRun.result = none := rfl

@[simp] lemma addLimitSub_submissions (s : Trader.LimitSubmission) (r : Trader.LimitRun) :
    (Trader.addLimitSub s r).submissions = s :: r.submissions := rfl

@[simp] lemma addLimitSub_result (s : Trader.LimitSubmission) (r : Trader.LimitRun) :
    (Trader.addLimitSub s r).result = r.result := rfl

@[simp] lemma addLimitBackoff_submissions (b : ℕ) (r : Trader.LimitRun) :
    (Trader.addLimitBackoff b r).submissions = r.submissions := rfl

@[simp] lemma addLimitBackoff_result (b : ℕ) (r : Trader.LimitRun) :
    (Trader.addLimitBackoff b r).result = r.result := rfl

@[simp] lemma noneLimitRun_submissions : Trader.noneLimitRun.submissions = [] := rfl

@[simp] lemma noneLimitRun_result : Trader.noneLimitRun.result = none := rfl

/-- Whenever `validateAndAdjustShares` succeeds, the exchange reported a
balance `B` and the returned quantity is `min requested B`, at or above
the minimum order size. -/
lemma validate_some_spec (bal : Option ℚ) (S m : ℚ) (adj : Trader.AdjustedShares)
    (h : Trader.validateAndAdjustShares bal S m = some adj) :
    ∃ B, bal = some B ∧ adj.sharesToSell = min S B ∧ m ≤ min S B := by
  cases bal with
  | none => simp [Trader.validateAndAdjustShares] at h
  | some b =>
    refine ⟨b, rfl, ?_⟩
    simp only [Trader.validateAndAdjustShares] at h
    split at h
    · exact absurd h (by simp)
    · split at h
      · exact absurd h (by simp)
      · split at h
        · exact absurd h (by simp)
        · cases h
          exact ⟨rfl, le_of_not_lt (by assumption)⟩

/-- A reported balance below the minimum order size always fails
validation. -/
lemma validate_none_of_below_min (S : ℚ) (B m : ℚ) (h : B < m) :
    Trader.validateAndAdjustShares (some B) S m = none := by
  simp only [Trader.validateAndAdjustShares]
  split
  · rfl
  · split
    · rfl
    · rw [if_pos (lt_of_le_of_lt (min_le_right S B) h)]

/-- Every order the `marketSell` loop submits stems from an attempt whose
balance re-read passed validation; its quantity is that attempt's clamped
quantity and its urgency follows the attempt number. -/
lemma marketSellGo_sub_spec (sharesReq : ℚ) (bidOverride : Option ℚ) (maxRetries : ℕ)
    (envs : List Trader.SellAttemptEnv) (attempt : ℕ) (sub : Trader.Submission)
    (hmem : sub ∈ (Trader.marketSellGo sharesReq bidOverride maxRetries envs attempt).submissions) :
    ∃ env ∈ envs, ∃ adj : Trader.AdjustedShares,
      Trader.validateAndAdjustShares env.positionBalance sharesReq env.minOrderSize = some adj ∧
      sub.amount = adj.sharesToSell ∧
      sub.orderType = Trader.orderTypeFor sub.attempt ∧
      attempt ≤ sub.attempt := by
  induction envs generalizing attempt with
  | nil => simp [Trader.marketSellGo, Trader.noneRun] at hmem
  | cons env rest ih =>
    simp only [Trader.marketSellGo] at hmem
    split at hmem
    · simp [Trader.noneRun] at hmem
    · split at hmem
      case h_1 hv =>
        split at hmem
        · obtain ⟨env', henv', rest'⟩ := ih (attempt + 1) hmem
          exact ⟨env', List.mem_cons_of_mem _ henv', rest'.imp
            (fun adj ⟨a, b, c, d⟩ => ⟨a, b, c, le_trans (Nat.le_succ _) d⟩)⟩
        · simp [Trader.noneRun] at hmem
      case h_2 adj hv =>
        have hhead : sub = ⟨attempt, Trader.orderTypeFor attempt, adj.sharesToSell,
            Trader.priceCapFor bidOverride env.tickSize⟩ →
            ∃ env' ∈ env :: rest, ∃ adj' : Trader.AdjustedShares,
              Trader.validateAndAdjustShares env'.positionBalance sharesReq env'.minOrderSize = some adj' ∧
              sub.amount = adj'.sharesToSell ∧
              sub.orderType = Trader.orderTypeFor sub.attempt ∧
              attempt ≤ sub.attempt := by
          intro hs
          subst hs
          exact ⟨env, List.mem_cons_self _ _, adj, hv, rfl, rfl, le_refl _⟩
        have htail : sub ∈ (Trader.marketSellGo sharesReq bidOverride maxRetries rest (attempt + 1)).submissions →
            ∃ env' ∈ env :: rest, ∃ adj' : Trader.AdjustedShares,
              Trader.validateAndAdjustShares env'.positionBalance sharesReq env'.minOrderSize = some adj' ∧
              sub.amount = adj'.sharesToSell ∧
              sub.orderType = Trader.orderTypeFor sub.attempt ∧
              attempt ≤ sub.attempt := by
          intro hm
          obtain ⟨env', henv', rest'⟩ := ih (attempt + 1) hm
          exact ⟨env', List.mem_cons_of_mem _ henv', rest'.imp
            (fun adj' ⟨a, b, c, d⟩ => ⟨a, b, c, le_trans (Nat.le_succ _) d⟩)⟩
        split at hmem <;>
          repeat' (split at hmem)
        all_goals
          simp only [addSub_submissions, addBackoff_submissions, noneRun_submissions,
            List.mem_cons, List.mem_singleton, List.not_mem_nil, or_false] at hmem
        all_goals
          first
            | exact hhead hmem
            | (rcases hmem with h | h
               · exact hhead h
               · exact htail h)

/-- The `limitSell` analogue of `marketSellGo_sub_spec`. -/
lemma limitSellGo_sub_spec (price sharesReq : ℚ) (maxRetries : ℕ)
    (envs : List Trader.SellAttemptEnv) (attempt : ℕ) (sub : Trader.LimitSubmission)
    (hmem : sub ∈ (Trader.limitSellGo price sharesReq maxRetries envs attempt).submissions) :
    ∃ env ∈ envs, ∃ adj : Trader.AdjustedShares,
      Trader.validateAndAdjustShares env.positionBalance sharesReq env.minOrderSize = some adj ∧
      sub.size = adj.sharesToSell ∧
      sub.price = Trader.clampPriceToTick price env.tickSize ∧
      attempt ≤ sub.attempt := by
  induction envs generalizing attempt with
  | nil => simp [Trader.limitSellGo, Trader.noneLimitRun] at hmem
  | cons env rest ih =>
    simp only [Trader.limitSellGo] at hmem
    split at hmem
    · simp [Trader.noneLimitRun] at hmem
    · split at hmem
      case h_1 hv => simp [Trader.noneLimitRun] at hmem
      case h_2 adj hv =>
        have hhead : sub = ⟨attempt, adj.sharesToSell, Trader.clampPriceToTick price env.tickSize⟩ →
            ∃ env' ∈ env :: rest, ∃ adj' : Trader.AdjustedShares,
              Trader.validateAndAdjustShares env'.positionBalance sharesReq env'.minOrderSize = some adj' ∧
              sub.size = adj'.sharesToSell ∧
              sub.price = Trader.clampPriceToTick price env'.tickSize ∧
              attempt ≤ sub.attempt := by
          intro hs
          subst hs
          exact ⟨env, List.mem_cons_self _ _, adj, hv, rfl, rfl, le_refl _⟩
        have htail : sub ∈ (Trader.limitSellGo price sharesReq maxRetries rest (attempt + 1)).submissions →
            ∃ env' ∈ env :: rest, ∃ adj' : Trader.AdjustedShares,
              Trader.validateAndAdjustShares env'.positionBalance sharesReq env'.minOrderSize = some adj' ∧
              sub.size = adj'.sharesToSell ∧
              sub.price = Trader.clampPriceToTick price env'.tickSize ∧
              attempt ≤ sub.attempt := by
          intro hm
          obtain ⟨env', henv', rest'⟩ := ih (attempt + 1) hm
          exact ⟨env', List.mem_cons_of_mem _ henv', rest'.imp
            (fun adj' ⟨a, b, c, d⟩ => ⟨a, b, c, le_trans (Nat.le_succ _) d⟩)⟩
        split at hmem <;>
          repeat' (split at hmem)
        all_goals
          simp only [addLimitSub_submissions, addLimitBackoff_submissions,
            noneLimitRun_submissions, List.mem_cons, List.mem_singleton,
            List.not_mem_nil, or_false] at hmem
        all_goals
          first
            | exact hhead hmem
            | (rcases hmem with h | h
               · exact hhead h
               · exact htail h)

/-- When every attempt's re-read balance is below the minimum order size,
the `marketSell` loop never submits and fails. -/
lemma marketSellGo_below_min (sharesReq : ℚ) (bidOverride : Option ℚ) (maxRetries : ℕ)
    (envs : List Trader.SellAttemptEnv)
    (h : ∀ env ∈ envs, ∃ B, env.positionBalance = some B ∧ B < env.minOrderSize) :
    ∀ attempt, Trader.marketSellGo sharesReq bidOverride maxRetries envs attempt = Trader.noneRun := by
  induction envs with
  | nil => intro attempt; rfl
  | cons env rest ih =>
    intro attempt
    obtain ⟨B, hB, hlt⟩ := h env (List.mem_cons_self _ _)
    have hv : Trader.validateAndAdjustShares env.positionBalance sharesReq env.minOrderSize = none := by
      rw [hB]; exact validate_none_of_below_min _ _ _ hlt
    simp only [Trader.marketSellGo, hv]
    split
    · rfl
    · split
      · exact ih (fun e he => h e (List.mem_cons_of_mem _ he)) (attempt + 1)
      · rfl

/-- The `limitSell` analogue of `marketSellGo_below_min`. -/
lemma limitSellGo_below_min (price sharesReq : ℚ) (maxRetries : ℕ)
    (envs : List Trader.SellAttemptEnv)
    (h : ∀ env ∈ envs, ∃ B, env.positionBalance = some B ∧ B < env.minOrderSize) :
    ∀ attempt, Trader.limitSellGo price sharesReq maxRetries envs attempt = Trader.noneLimitRun := by
  induction envs with
  | nil => intro attempt; rfl
  | cons env rest ih =>
    intro attempt
    obtain ⟨B, hB, hlt⟩ := h env (List.mem_cons_self _ _)
    have hv : Trader.validateAndAdjustShares env.positionBalance sharesReq env.minOrderSize = none := by
      rw [hB]; exact validate_none_of_below_min _ _ _ hlt
    simp only [Trader.limitSellGo, hv]
    split <;> rfl

/-- `applyClose` never changes a row's id. -/
lemma applyClose_id (id : ℕ) (p : ℚ) (st : Db.TerminalStatus) (pnl : ℚ) (ts : String)
    (r : Db.TradeRow) : (Db.applyClose id p st pnl ts r).id = r.id := by
  unfold Db.applyClose
  split <;> rfl

/-- `applyClose` leaves rows with a different id untouched. -/
lemma applyClose_ne (id : ℕ) (p : ℚ) (st : Db.TerminalStatus) (pnl : ℚ) (ts : String)
    (r : Db.TradeRow) (h : r.id ≠ id) : Db.applyClose id p st pnl ts r = r := by
  unfold Db.applyClose
  rw [if_neg h]

/-- Looking a row up after the close UPDATE commutes with the update. -/
lemma getTradeById_map_applyClose (id : ℕ) (p : ℚ) (st : Db.TerminalStatus) (pnl : ℚ)
    (ts : String) (db : Db.TradeDb) :
    Db.getTradeById (db.map (Db.applyClose id p st pnl ts)) id =
      (Db.getTradeById db id).map (Db.applyClose id p st pnl ts) := by
  induction db with
  | nil => rfl
  | cons r rest ih =>
    simp only [List.map_cons, Db.getTradeById, applyClose_id]
    split
    · rfl
    · exact ih

/-- A found row carries the id it was looked up by. -/
lemma getTradeById_id (db : Db.TradeDb) (id : ℕ) (t : Db.TradeRow)
    (h : Db.getTradeById db id = some t) : t.id = id := by
  induction db with
  | nil => cases h
  | cons r rest ih =>
    simp only [Db.getTradeById] at h
    split at h
    · cases h
      assumption
    · exact ih h

/-- Membership after a `Set.add` of one id. -/
lemma mem_addSubscription (subs : List String) (a id : String) :
    id ∈ PriceStream.addSubscription subs a ↔ id ∈ subs ∨ id = a := by
  unfold PriceStream.addSubscription
  split
  · rename_i h
    constructor
    · exact Or.inl
    · rintro (h' | rfl)
      · exact h'
      · simpa using h
  · simp [List.mem_append]

/-- Membership after adding a batch of ids to the tracked set. -/
lemma mem_foldl_addSubscription (l : List String) (subs : List String) (id : String) :
    id ∈ l.foldl PriceStream.addSubscription subs ↔ id ∈ subs ∨ id ∈ l := by
  induction l generalizing subs with
  | nil => simp
  | cons a l ih =>
    rw [List.foldl_cons, ih, mem_addSubscription]
    simp only [List.mem_cons]
    tauto

/-! ## Claim theorems -/

/-- C1: For every sell attempt (stop-loss market sell and limit sell), when
the exchange reports an actual held balance `B` for the instrument and the
caller requests `S` shares, the quantity submitted to the exchange is
`min S B`; and if `B` is below the instrument's minimum order size the
operation returns failure without submitting any order.  The last conjunct
is the spec's example: requested 12 shares against an actual balance of 10
submits exactly 10. -/
theorem sell_quantity_clamped_to_exchange_balance
    (sharesReq price : ℚ) (bidOverride : Option ℚ) (maxRetries : ℕ)
    (envs : List Trader.SellAttemptEnv) :
    (∀ sub ∈ (Trader.marketSellGo sharesReq bidOverride maxRetries envs 1).submissions,
       ∃ env ∈ envs, ∃ B, env.positionBalance = some B ∧
         sub.amount = min sharesReq B ∧ env.minOrderSize ≤ min sharesReq B) ∧
    (∀ sub ∈ (Trader.limitSellGo price sharesReq maxRetries envs 1).submissions,
       ∃ env ∈ envs, ∃ B, env.positionBalance = some B ∧
         sub.size = min sharesReq B ∧ env.minOrderSize ≤ min sharesReq B) ∧
    ((∀ env ∈ envs, ∃ B, env.positionBalance = some B ∧ B < env.minOrderSize) →
       ∀ attempt,
         (Trader.marketSellGo sharesReq bidOverride maxRetries envs attempt).result = none ∧
         (Trader.marketSellGo sharesReq bidOverride maxRetries envs attempt).submissions = [] ∧
         (Trader.limitSellGo price sharesReq maxRetries envs attempt).result = none ∧
         (Trader.limitSellGo price sharesReq maxRetries envs attempt).submissions = []) ∧
    (Trader.marketSellGo 12 none 3
       [⟨some 10, 5, 1/100, .accepted "a", some ⟨10, 1/2⟩⟩] 1).submissions =
      [⟨1, .FOK, 10, none⟩] := by
  refine ⟨?_, ?_, ?_, ?_⟩
  · intro sub hmem
    obtain ⟨env, henv, adj, hv, hamt, -, -⟩ :=
      marketSellGo_sub_spec sharesReq bidOverride maxRetries envs 1 sub hmem
    obtain ⟨B, hB, hmin, hge⟩ := validate_some_spec _ _ _ _ hv
    exact ⟨env, henv, B, hB, by rw [hamt, hmin], hge⟩
  · intro sub hmem
    obtain ⟨env, henv, adj, hv, hamt, -, -⟩ :=
      limitSellGo_sub_spec price sharesReq maxRetries envs 1 sub hmem
    obtain ⟨B, hB, hmin, hge⟩ := validate_some_spec _ _ _ _ hv
    exact ⟨env, henv, B, hB, by rw [hamt, hmin], hge⟩
  · intro h attempt
    rw [marketSellGo_below_min sharesReq bidOverride maxRetries envs h attempt,
      limitSellGo_below_min price sharesReq maxRetries envs h attempt]
    exact ⟨rfl, rfl, rfl, rfl⟩
  · norm_num [Trader.marketSellGo, Trader.validateAndAdjustShares,
      Trader.orderTypeFor, Trader.priceCapFor, Trader.addSub, Trader.addBackoff]

/-- C2 counterexample: `marketSell` receives a rejection whose message
"market closed" is not classified as transient on its first attempt
(with `maxRetries = 3`), yet a second attempt is made and succeeds -
the operation does not fail immediately on a non-transient rejection. -/
theorem marketSell_retries_after_non_transient_rejection :
    Trader.isBalanceAllowanceError "market closed" = false ∧
    (Trader.marketSellGo 10 none 3
      [⟨some 10, 5, 1/100, .rejected (some "market closed"), none⟩,
       ⟨some 10, 5, 1/100, .accepted "ord2", some ⟨10, 9/10⟩⟩] 1) =
    ⟨some ⟨"ord2", 9/10, 10, true⟩,
     [⟨1, .FOK, 10, none⟩, ⟨2, .FAK, 10, none⟩], []⟩ := by
  constructor
  · decide
  · norm_num [Trader.marketSellGo, Trader.validateAndAdjustShares,
      Trader.orderTypeFor, Trader.priceCapFor, Trader.addSub, Trader.addBackoff,
      Trader.noneRun, show Trader.isBalanceAllowanceError "market closed" = false from by decide]

/-- C2 amended: `limitSell` fails immediately, with no further attempt, on
a rejection not classified as transient, and retries only transient
(balance/allowance) rejections with the capped exponential backoff;
`marketSell`, by contrast, also consumes further attempts after a
non-transient rejection (without backoff) until the attempt cap, where it
fails.  Likewise a failed balance validation ends `limitSell` at once but
only consumes an attempt of `marketSell`.  The backoff is
`min(500 * 2^(attempt-1), 2000)` ms. -/
theorem sell_retry_policy (price sharesReq : ℚ) (bidOverride : Option ℚ)
    (maxRetries attempt : ℕ) (env : Trader.SellAttemptEnv)
    (rest : List Trader.SellAttemptEnv) (adj : Trader.AdjustedShares) (e : Option String) :
    (Trader.validateAndAdjustShares env.positionBalance sharesReq env.minOrderSize = some adj →
     env.post = .rejected e → attempt ≤ maxRetries →
     Trader.isBalanceAllowanceError (e.getD "") = false →
     Trader.limitSellGo price sharesReq maxRetries (env :: rest) attempt =
       ⟨none, [⟨attempt, adj.sharesToSell, Trader.clampPriceToTick price env.tickSize⟩], []⟩) ∧
    (Trader.validateAndAdjustShares env.positionBalance sharesReq env.minOrderSize = some adj →
     env.post = .rejected e → attempt ≤ maxRetries →
     Trader.isBalanceAllowanceError (e.getD "") = true →
     Trader.limitSellGo price sharesReq maxRetries (env :: rest) attempt =
       Trader.addLimitSub ⟨attempt, adj.sharesToSell, Trader.clampPriceToTick price env.tickSize⟩
         (Trader.addLimitBackoff (Trader.backoffMs attempt)
           (Trader.limitSellGo price sharesReq maxRetries rest (attempt + 1)))) ∧
    (Trader.validateAndAdjustShares env.positionBalance sharesReq env.minOrderSize = some adj →
     env.post = .rejected e → attempt < maxRetries →
     Trader.isBalanceAllowanceError (e.getD "") = false →
     Trader.marketSellGo sharesReq bidOverride maxRetries (env :: rest) attempt =
       Trader.addSub ⟨attempt, Trader.orderTypeFor attempt, adj.sharesToSell,
           Trader.priceCapFor bidOverride env.tickSize⟩
         (Trader.marketSellGo sharesReq bidOverride maxRetries rest (attempt + 1))) ∧
    (Trader.validateAndAdjustShares env.positionBalance sharesReq env.minOrderSize = some adj →
     env.post = .rejected e → attempt ≤ maxRetries →
     Trader.isBalanceAllowanceError (e.getD "") = true →
     Trader.marketSellGo sharesReq bidOverride maxRetries (env :: rest) attempt =
       Trader.addSub ⟨attempt, Trader.orderTypeFor attempt, adj.sharesToSell,
           Trader.priceCapFor bidOverride env.tickSize⟩
         (Trader.addBackoff (Trader.backoffMs attempt)
           (Trader.marketSellGo sharesReq bidOverride maxRetries rest (attempt + 1)))) ∧
    (Trader.validateAndAdjustShares env.positionBalance sharesReq env.minOrderSize = some adj →
     env.post = .rejected e → attempt = maxRetries →
     Trader.isBalanceAllowanceError (e.getD "") = false →
     Trader.marketSellGo sharesReq bidOverride maxRetries (env :: rest) attempt =
       ⟨none, [⟨attempt, Trader.orderTypeFor attempt, adj.sharesToSell,
           Trader.priceCapFor bidOverride env.tickSize⟩], []⟩) ∧
    (Trader.validateAndAdjustShares env.positionBalance sharesReq env.minOrderSize = none →
     attempt < maxRetries →
     Trader.marketSellGo sharesReq bidOverride maxRetries (env :: rest) attempt =
       Trader.marketSellGo sharesReq bidOverride maxRetries rest (attempt + 1)) ∧
    (Trader.validateAndAdjustShares env.positionBalance sharesReq env.minOrderSize = none →
     attempt ≤ maxRetries →
     Trader.limitSellGo price sharesReq maxRetries (env :: rest) attempt =
       Trader.noneLimitRun) ∧
    (Trader.backoffMs 1 = 500 ∧ Trader.backoffMs 2 = 1000 ∧ Trader.backoffMs 3 = 2000 ∧
     ∀ a, Trader.backoffMs a ≤ 2000) := by
  refine ⟨?_, ?_, ?_, ?_, ?_, ?_, ?_, ?_, ?_, ?_, ?_⟩
  · intro hv hpost hle htr
    simp [Trader.limitSellGo, hv, hpost, htr, not_lt.mpr hle]
  · intro hv hpost hle htr
    simp [Trader.limitSellGo, hv, hpost, htr, not_lt.mpr hle]
  · intro hv hpost hlt htr
    simp [Trader.marketSellGo, hv, hpost, htr, hlt, not_lt.mpr (le_of_lt hlt)]
  · intro hv hpost hle htr
    simp [Trader.marketSellGo, hv, hpost, htr, not_lt.mpr hle]
  · intro hv hpost heq htr
    subst heq
    simp [Trader.marketSellGo, hv, hpost, htr, Trader.addSub, Trader.noneRun]
  · intro hv hlt
    simp [Trader.marketSellGo, hv, hlt, not_lt.mpr (le_of_lt hlt)]
  · intro hv hle
    simp [Trader.limitSellGo, hv, not_lt.mpr hle]
  · rfl
  · rfl
  · rfl
  · intro a
    exact min_le_right _ _

/-- C6: Every order the urgent (stop-loss) sell loop submits uses the
full-immediate-fill mode on the first attempt and the
partial-immediate-fill mode on every later attempt. -/
theorem urgent_sell_escalates_urgency (sharesReq : ℚ) (bidOverride : Option ℚ)
    (maxRetries : ℕ) (envs : List Trader.SellAttemptEnv) (sub : Trader.Submission)
    (hmem : sub ∈ (Trader.marketSellGo sharesReq bidOverride maxRetries envs 1).submissions) :
    1 ≤ sub.attempt ∧
    (sub.attempt = 1 → sub.orderType = Trader.OrderType.FOK) ∧
    (2 ≤ sub.attempt → sub.orderType = Trader.OrderType.FAK) := by
  obtain ⟨env, -, adj, -, -, hot, hle⟩ :=
    marketSellGo_sub_spec sharesReq bidOverride maxRetries envs 1 sub hmem
  refine ⟨hle, ?_, ?_⟩
  · intro h1
    rw [hot, h1]
    rfl
  · intro h2
    rw [hot]
    unfold Trader.orderTypeFor
    rw [if_neg (by omega)]

/-- C6 witness: a concrete two-attempt run whose second submission uses
the partial-fill mode. -/
theorem urgent_sell_escalates_urgency_witness :
    1 ≤ (⟨2, Trader.OrderType.FAK, 12, none⟩ : Trader.Submission).attempt ∧
    ((⟨2, Trader.OrderType.FAK, 12, none⟩ : Trader.Submission).attempt = 1 →
      (⟨2, Trader.OrderType.FAK, 12, none⟩ : Trader.Submission).orderType = Trader.OrderType.FOK) ∧
    (2 ≤ (⟨2, Trader.OrderType.FAK, 12, none⟩ : Trader.Submission).attempt →
      (⟨2, Trader.OrderType.FAK, 12, none⟩ : Trader.Submission).orderType = Trader.OrderType.FAK) :=
  urgent_sell_escalates_urgency 12 none 3
    [⟨some 12, 5, 1/100, .accepted "a1", none⟩,
     ⟨some 12, 5, 1/100, .accepted "a2", some ⟨12, 1/2⟩⟩]
    ⟨2, Trader.OrderType.FAK, 12, none⟩
    (by norm_num [Trader.marketSellGo, Trader.validateAndAdjustShares,
      Trader.orderTypeFor, Trader.priceCapFor, Trader.addSub, Trader.addBackoff,
      Trader.noneRun])

/-- C3 counterexample: `closeTrade` is applied twice to the same trade;
the second call moves the terminal status STOPPED to RESOLVED and
rewrites the already-set exit price (0.3 to 0.9) and pnl (-2 to 4) - the
ledger operation does not make terminal statuses monotonic. -/
theorem closeTrade_overwrites_closed_trade :
    Db.closeTrade [⟨1, "m", "t", .UP, 1/2, none, 10, 5, .OPEN, none, "t0", none, none⟩]
      1 (3/10) .STOPPED "t1" =
      [⟨1, "m", "t", .UP, 1/2, some (3/10), 10, 5, .STOPPED, some (-2), "t0", some "t1", none⟩] ∧
    Db.closeTrade
      [⟨1, "m", "t", .UP, 1/2, some (3/10), 10, 5, .STOPPED, some (-2), "t0", some "t1", none⟩]
      1 (9/10) .RESOLVED "t2" =
      [⟨1, "m", "t", .UP, 1/2, some (9/10), 10, 5, .RESOLVED, some 4, "t0", some "t2", none⟩] := by
  constructor <;>
    norm_num [Db.closeTrade, Db.getTradeById, Db.applyClose, Db.TerminalStatus.toStatus]

/-- C3 amended: `closeTrade` writes exit price, terminal status,
`pnl = (exit - entry) * shares` and the close timestamp together in one
update of the matching record, leaves every other record unchanged, and
is a no-op for an unknown id; it does not, however, guard against
records that are already closed, so a later `closeTrade` on the same id
overwrites the terminal status, exit price and pnl. -/
theorem closeTrade_atomic_update (db : Db.TradeDb) (id : ℕ) (p : ℚ)
    (st : Db.TerminalStatus) (ts : String) :
    (Db.getTradeById db id = none → Db.closeTrade db id p st ts = db) ∧
    (∀ t, Db.getTradeById db id = some t →
       Db.getTradeById (Db.closeTrade db id p st ts) id =
         some { t with
           exitPrice := some p,
           status := st.toStatus,
           pnl := some ((p - t.entryPrice) * t.shares),
           closedAt := some ts }) ∧
    (∀ r ∈ db, r.id ≠ id → r ∈ Db.closeTrade db id p st ts) := by
  refine ⟨?_, ?_, ?_⟩
  · intro h
    simp [Db.closeTrade, h]
  · intro t ht
    simp only [Db.closeTrade, ht]
    rw [getTradeById_map_applyClose, ht, Option.map_some']
    unfold Db.applyClose
    rw [if_pos (getTradeById_id db id t ht)]
  · intro r hr hne
    simp only [Db.closeTrade]
    split
    · exact hr
    · exact applyClose_ne _ _ _ _ _ _ hne ▸ List.mem_map_of_mem _ hr

/-- C3 witness: the amended update behaviour at a concrete one-row
ledger. -/
theorem closeTrade_atomic_update_witness :
    Db.getTradeById
        (Db.closeTrade [⟨1, "m", "t", .UP, 1/2, none, 10, 5, .OPEN, none, "t0", none, none⟩]
          1 (9/10) .RESOLVED "t2") 1 =
      some ⟨1, "m", "t", .UP, 1/2, some (9/10), 10, 5, .RESOLVED, some 4, "t0", some "t2", none⟩ := by
  have h := (closeTrade_atomic_update
    [⟨1, "m", "t", .UP, 1/2, none, 10, 5, .OPEN, none, "t0", none, none⟩]
    1 (9/10) .RESOLVED "t2").2.1
    ⟨1, "m", "t", .UP, 1/2, none, 10, 5, .OPEN, none, "t0", none, none⟩
    (by norm_num [Db.getTradeById])
  rw [h]
  norm_num [Db.TerminalStatus.toStatus]

/-- C4 counterexample: the price 1/20000 = 0.00005 lies strictly inside
the open interval (0, 1), yet `buy` rejects it (the guard is
`price < 0.0001 || price >= 1`), even with ample funds and an accepting
exchange. -/
theorem buy_rejects_price_inside_open_interval :
    (0 < (1:ℚ)/20000 ∧ (1:ℚ)/20000 < 1) ∧
    Trader.buy (1/20000) 10 ⟨5, 1/100⟩ (.accepted "o") = .invalidPrice := by
  norm_num [Trader.buy, Trader.buyPriceInvalid]

/-- C4 amended: `buy` rejects with the invalid-price failure exactly when
the price is below 0.0001 or at least 1; every price `p` with
`0.0001 ≤ p < 1` passes the price-bounds check. -/
theorem buy_price_bounds (price usdcAmount : ℚ) (rules : Trader.MarketRules)
    (post : Trader.PostOutcome) :
    (Trader.buyPriceInvalid price = true →
       Trader.buy price usdcAmount rules post = .invalidPrice) ∧
    (Trader.buyPriceInvalid price = false ↔ 1/10000 ≤ price ∧ price < 1) := by
  constructor
  · intro h
    simp [Trader.buy, h]
  · simp only [Trader.buyPriceInvalid, decide_eq_false_iff_not, not_or, not_lt, not_le]

/-- C4 witness: a price of 2 is outside the bounds and rejected; a price
of 1/2 passes the bounds check. -/
theorem buy_price_bounds_witness :
    Trader.buy 2 10 ⟨5, 1/100⟩ (.accepted "o") = .invalidPrice ∧
    Trader.buyPriceInvalid (1/2) = false :=
  ⟨(buy_price_bounds 2 10 ⟨5, 1/100⟩ (.accepted "o")).1 (by norm_num [Trader.buyPriceInvalid]),
   (buy_price_bounds (1/2) 10 ⟨5, 1/100⟩ (.accepted "o")).2.mpr (by norm_num)⟩

/-- C5: An accepted buy submits exactly
`floor((notional / clampedPrice) * 100) / 100` shares (a positive
quantity at or above the token minimum); with valid price bounds the buy
is rejected when that quantity is nonpositive, and when it is positive
but below the token minimum it is rejected reporting
`minOrderSize * clampedPrice` USDC as the amount needed.  The last
conjunct is the spec's example: notional 10 at clamped price 0.20 buys
exactly 50.00 shares. -/
theorem buy_share_sizing (price usdcAmount : ℚ) (rules : Trader.MarketRules)
    (post : Trader.PostOutcome) :
    (∀ orderId shares, Trader.buy price usdcAmount rules post = .placed orderId shares →
       shares = ((⌊(usdcAmount / Trader.clampPriceToTick price rules.tickSize) * 100⌋ : ℤ) : ℚ) / 100 ∧
       0 < shares ∧ rules.minOrderSize ≤ shares) ∧
    (Trader.buyPriceInvalid price = false →
       (((⌊(usdcAmount / Trader.clampPriceToTick price rules.tickSize) * 100⌋ : ℤ) : ℚ) / 100 ≤ 0 →
         Trader.buy price usdcAmount rules post = .insufficientFunds) ∧
       (0 < ((⌊(usdcAmount / Trader.clampPriceToTick price rules.tickSize) * 100⌋ : ℤ) : ℚ) / 100 →
        ((⌊(usdcAmount / Trader.clampPriceToTick price rules.tickSize) * 100⌋ : ℤ) : ℚ) / 100 < rules.minOrderSize →
         Trader.buy price usdcAmount rules post =
           .belowMinimum (rules.minOrderSize * Trader.clampPriceToTick price rules.tickSize))) ∧
    Trader.buy (1/5) 10 ⟨5, 1/100⟩ (.accepted "o") = .placed "o" 50 := by
  refine ⟨?_, ?_, ?_⟩
  · intro orderId shares h
    simp only [Trader.buy] at h
    split at h
    · cases h
    · split at h
      · cases h
      · split at h
        · cases h
        · split at h <;> cases h
          exact ⟨rfl, lt_of_not_le (by assumption), le_of_not_lt (by assumption)⟩
  · intro hb
    constructor
    · intro hle
      simp only [Trader.buy, hb, Bool.false_eq_true, if_false]
      rw [if_pos hle]
    · intro hpos hlt
      simp only [Trader.buy, hb, Bool.false_eq_true, if_false]
      rw [if_neg (not_le.mpr hpos), if_pos hlt]
  · norm_num [Trader.buy, Trader.buyPriceInvalid, Trader.clampPriceToTick, Trader.toFixed6]

/-- C5 witness: the sizing equation of the accepted example buy,
extracted through the theorem at notional 10, price 0.20, tick 0.01,
minimum 5. -/
theorem buy_share_sizing_witness :
    (50 : ℚ) = ((⌊((10:ℚ) / Trader.clampPriceToTick (1/5) (1/100)) * 100⌋ : ℤ) : ℚ) / 100 ∧
    (0 : ℚ) < 50 ∧ (5 : ℚ) ≤ 50 :=
  (buy_share_sizing (1/5) 10 ⟨5, 1/100⟩ (.accepted "o")).1 "o" 50
    (buy_share_sizing (1/5) 10 ⟨5, 1/100⟩ (.accepted "o")).2.2

/-- C7 counterexample: the cached snapshot for "t" has the non-degenerate
spread 0.6/0.8, and the incoming message carries only a standalone
last-trade price 0.5 (no best-bid/best-ask pair), yet processing it
changes the snapshot: the price field is overwritten by the trade
price. -/
theorem last_trade_price_overwrites_live_snapshot :
    (3 : ℚ)/5 ≠ (4 : ℚ)/5 ∧
    PriceStream.handleMessage [("t", ⟨"t", 7/10, 3/5, 4/5⟩)]
      (.obj { eventTypeField := some "last_trade_price", assetId := some "t",
              price := some (1/2) }) =
      [("t", ⟨"t", 1/2, 3/5, 4/5⟩)] ∧
    [("t", (⟨"t", 1/2, 3/5, 4/5⟩ : PriceStream.PriceUpdate))] ≠
      [("t", ⟨"t", 7/10, 3/5, 4/5⟩)] := by
  refine ⟨by norm_num, ?_, by norm_num⟩
  norm_num +decide [PriceStream.handleMessage, PriceStream.handleObjMessage,
    PriceStream.handleLastTradePrice, PriceStream.lookupPrice, PriceStream.setPrice]

/-- C7 amended: within the `price_changes` handler the claim holds - an
item without an explicit best-bid/best-ask pair leaves a snapshot with a
non-degenerate spread unchanged, and its standalone trade price is
stored (as a degenerate snapshot) only when no snapshot exists; a
message handled as a last-trade-price event, however, does update the
cached snapshot, replacing its price with the trade price while
preserving the existing nonzero best bid and ask. -/
theorem standalone_trade_price_policy (prices : PriceStream.PriceMap)
    (item : PriceStream.PCItem) (o : PriceStream.RawObj) (tokenId : String)
    (e : PriceStream.PriceUpdate) (p : ℚ) :
    (item.assetId = some tokenId → (item.bestBid = none ∨ item.bestAsk = none) →
     PriceStream.lookupPrice prices tokenId = some e → e.bestBid ≠ e.bestAsk →
     PriceStream.handlePriceChangeItem prices item = prices) ∧
    (item.assetId = some tokenId → (item.bestBid = none ∨ item.bestAsk = none) →
     PriceStream.lookupPrice prices tokenId = none → item.price = some p → p ≠ 0 →
     PriceStream.handlePriceChangeItem prices item =
       PriceStream.setPrice prices tokenId ⟨tokenId, p, p, p⟩) ∧
    (o.assetId = some tokenId → o.price = some p → p ≠ 0 →
     PriceStream.lookupPrice prices tokenId = some e → e.bestBid ≠ 0 → e.bestAsk ≠ 0 →
     PriceStream.handleLastTradePrice prices o =
       PriceStream.setPrice prices tokenId ⟨tokenId, p, e.bestBid, e.bestAsk⟩) := by
  refine ⟨?_, ?_, ?_⟩
  · intro ha hnone hlook hne
    obtain ⟨aid, bb, ba, pr⟩ := item
    simp only at ha hnone
    subst ha
    rcases hnone with rfl | rfl
    · cases ba <;>
        simp [PriceStream.handlePriceChangeItem, hlook, hne]
    · cases bb <;>
        simp [PriceStream.handlePriceChangeItem, hlook, hne]
  · intro ha hnone hlook hpr hp
    obtain ⟨aid, bb, ba, pr⟩ := item
    simp only at ha hnone hpr
    subst ha
    subst hpr
    rcases hnone with rfl | rfl
    · cases ba <;>
        simp [PriceStream.handlePriceChangeItem, hlook, hp]
    · cases bb <;>
        simp [PriceStream.handlePriceChangeItem, hlook, hp]
  · intro ha hpr hp hlook hbb hba
    simp only [PriceStream.handleLastTradePrice, ha, hpr, hlook, Option.getD_some]
    rw [if_neg hp, if_neg hbb, if_neg hba]

/-- C7 witness: the last-trade-price update behaviour at a concrete
snapshot, through the amended theorem. -/
theorem standalone_trade_price_policy_witness :
    PriceStream.handleLastTradePrice [("t", ⟨"t", 7/10, 3/5, 4/5⟩)]
      { eventTypeField := some "last_trade_price", assetId := some "t",
        price := some (1/2) } =
      PriceStream.setPrice [("t", ⟨"t", 7/10, 3/5, 4/5⟩)] "t" ⟨"t", 1/2, 3/5, 4/5⟩ :=
  (standalone_trade_price_policy [("t", ⟨"t", 7/10, 3/5, 4/5⟩)] {}
    { eventTypeField := some "last_trade_price", assetId := some "t", price := some (1/2) }
    "t" ⟨"t", 7/10, 3/5, 4/5⟩ (1/2)).2.2 rfl rfl (by norm_num)
    (by norm_num [PriceStream.lookupPrice]) (by norm_num) (by norm_num)

/-- Case split on membership within a filtered batch. -/
lemma mem_subs_or_filter (subs l : List String) (id : String) :
    (id ∈ subs ∨ id ∈ l.filter (fun x => !(subs.contains x))) ↔ id ∈ subs ∨ id ∈ l := by
  by_cases h : id ∈ subs
  · simp [h]
  · simp [h, List.mem_filter]

/-- C8: After a disconnect followed by a reconnect, the stream's open
handler resends a subscription message covering exactly the whole
tracked set, with the tracked set unchanged and without any caller
involvement; and `subscribe` adds only ids not already tracked and,
when connected, sends a subscription message for just the new ids. -/
theorem stream_resubscribes_on_reconnect (s : PriceStream.StreamState)
    (tokenIds : List String) :
    ((PriceStream.onOpen (PriceStream.onClose s)).1.subscriptions = s.subscriptions) ∧
    ((PriceStream.onOpen (PriceStream.onClose s)).1.connected = true) ∧
    (s.subscriptions ≠ [] →
       (PriceStream.onOpen (PriceStream.onClose s)).2 = some s.subscriptions) ∧
    (∀ id, id ∈ (PriceStream.subscribe s tokenIds).1.subscriptions ↔
       id ∈ s.subscriptions ∨ id ∈ tokenIds) ∧
    (∀ msg, (PriceStream.subscribe s tokenIds).2 = some msg →
       msg = tokenIds.filter (fun id => !(s.subscriptions.contains id)) ∧
       ∀ id ∈ msg, id ∉ s.subscriptions) ∧
    (s.connected = true →
     tokenIds.filter (fun id => !(s.subscriptions.contains id)) ≠ [] →
       (PriceStream.subscribe s tokenIds).2 =
         some (tokenIds.filter (fun id => !(s.subscriptions.contains id)))) := by
  refine ⟨?_, ?_, ?_, ?_, ?_, ?_⟩
  · simp only [PriceStream.onOpen, PriceStream.onClose]
    split <;> rfl
  · simp only [PriceStream.onOpen, PriceStream.onClose]
    split <;> rfl
  · intro h
    simp only [PriceStream.onOpen, PriceStream.onClose]
    rw [if_neg (by simpa using h)]
  · intro id
    simp only [PriceStream.subscribe]
    split <;>
      (rw [mem_foldl_addSubscription]
       exact mem_subs_or_filter _ _ _)
  · intro msg hmsg
    simp only [PriceStream.subscribe] at hmsg
    split at hmsg
    · cases hmsg
      refine ⟨rfl, ?_⟩
      intro id hid
      have h := List.mem_filter.mp hid
      simpa using h.2
    · cases hmsg
  · intro hc hne
    simp only [PriceStream.subscribe]
    have hcond : (!(List.filter (fun id => !(s.subscriptions.contains id)) tokenIds).isEmpty
        && s.connected) = true := by
      rw [hc, Bool.and_true, Bool.not_eq_true', List.isEmpty_eq_false]
      exact hne
    rw [if_pos hcond]

/-- C8 witness: with "a" already tracked on a connected stream,
subscribing to ["a", "b"] sends just ["b"]. -/
theorem stream_resubscribes_on_reconnect_witness :
    (PriceStream.subscribe ⟨["a"], true⟩ ["a", "b"]).2 =
      some (["a", "b"].filter (fun id => !((["a"] : List String).contains id))) :=
  (stream_resubscribes_on_reconnect ⟨["a"], true⟩ ["a", "b"]).2.2.2.2.2 rfl (by decide)

/-- C9: The stop-loss check (both the bot's `checkStopLosses` comparison
and the test suite's `shouldTriggerStopLoss`) triggers exactly when the
consulted current price is at or below the configured stop-loss level:
the boundary is inclusive (0.80 against stop 0.80 triggers, 0.81 does
not). -/
theorem stop_loss_boundary_inclusive (currentBid stopLoss : ℚ) :
    (Tests.shouldTriggerStopLoss currentBid stopLoss = true ↔ currentBid ≤ stopLoss) ∧
    (Bot.stopLossTriggered currentBid stopLoss = true ↔ currentBid ≤ stopLoss) ∧
    Tests.shouldTriggerStopLoss (80/100) (80/100) = true ∧
    Tests.shouldTriggerStopLoss (81/100) (80/100) = false ∧
    Bot.stopLossTriggered (80/100) (80/100) = true ∧
    Bot.stopLossTriggered (81/100) (80/100) = false := by
  refine ⟨by simp [Tests.shouldTriggerStopLoss], by simp [Bot.stopLossTriggered],
    ?_, ?_, ?_, ?_⟩ <;>
    norm_num [Tests.shouldTriggerStopLoss, Bot.stopLossTriggered]

/-- C9 witness: the boundary case through the theorem. -/
theorem stop_loss_boundary_inclusive_witness :
    Tests.shouldTriggerStopLoss (80/100) (80/100) = true ∧
    Bot.stopLossTriggered (81/100) (80/100) = false :=
  ⟨(stop_loss_boundary_inclusive (80/100) (80/100)).2.2.1,
   (stop_loss_boundary_inclusive (81/100) (80/100)).2.2.2.2.2⟩

/-- C10: When the order-book query fails, `getPrice` swallows the error
and returns the fixed default snapshot bid 0, ask 1, mid 0.5 - the very
value an empty order book produces, so callers (such as the stop-loss
evaluation consuming the mid) cannot distinguish an exchange failure
from an empty book. -/
theorem getPrice_error_yields_default_snapshot (e : String) :
    Trader.getPrice (.error e) = ⟨0, 1, 1/2⟩ ∧
    Trader.getPrice (.ok ⟨[], []⟩) = ⟨0, 1, 1/2⟩ ∧
    Trader.getPrice (.error e) = Trader.getPrice (.ok ⟨[], []⟩) ∧
    (Trader.getPrice (.error e)).mid = 1/2 := by
  norm_num [Trader.getPrice]

end PolymarketBot
